import Mathlib

/-!
Verification of the download-orchestration engine of the yt-downloader
repository against its natural-language specification.

The development shallowly embeds the relevant parts of the two API route
implementations and the shared utility module:

* `lib/yt-dlp-utils.ts` (v5.2.0, `src/unnamed/part_001`): artifact
  validation, fallback-format selection, timeout controller, process
  termination, error-text classification;
* the v5.2.0 download route (`src/unnamed/part_000`): the retry
  orchestrator loop, the supervised subprocess close handler, the progress
  parser/publisher of that variant;
* the v5.4.2 download route (`src/app/api/download/route.ts`): the
  progress publisher with its monotonic clamp, the close handler, the
  temp-file cleanup paths, and `deleteTempFile`.

Machine sizes are `Nat`, size ratios are exact rationals, the filesystem is
a set of paths, and I/O effects (signals sent, progress events published,
files deleted) are returned as explicit data so that theorems can speak
about them.
-/

/-! ## Generic string helpers (substring / prefix tests used by the code) -/

/-- Boolean prefix test on character lists. -/
def listPrefixOf : List Char → List Char → Bool
  | [], _ => true
  | _ :: _, [] => false
  | a :: as, b :: bs => a = b && listPrefixOf as bs

/-- Boolean infix (substring) test on character lists. -/
def listInfix (pat : List Char) : List Char → Bool
  | [] => listPrefixOf pat []
  | c :: rest => listPrefixOf pat (c :: rest) || listInfix pat rest

/-- JavaScript `String.prototype.includes`. -/
def strContains (s pat : String) : Bool := listInfix pat.data s.data

/-- JavaScript `String.prototype.startsWith`. -/
def startsWithStr (s pat : String) : Bool := listPrefixOf pat.data s.data

/-- ASCII lower-casing of one character (the diagnostic text handled by the
classifiers is ASCII). -/
def lowerChar (c : Char) : Char :=
  if 65 ≤ c.toNat ∧ c.toNat ≤ 90 then Char.ofNat (c.toNat + 32) else c

/-- JavaScript `String.prototype.toLowerCase` on ASCII text. -/
def lowerStr (s : String) : String := ⟨s.data.map lowerChar⟩

/-- Numeric value of a digit run. -/
def digitsVal (cs : List Char) : Nat :=
  cs.foldl (fun a c => a * 10 + (c.toNat - 48)) 0


/-! ## `lib/yt-dlp-utils.ts` (v5.2.0) — constants and the artifact validator -/

/-- Minimum file size: 1KB (part_001 line 69). -/
def MIN_FILE_SIZE : Nat := 1024

/-- Lower size-tolerance bound (part_001 line 72). -/
def SIZE_TOLERANCE_MIN : ℚ := 1/2

/-- Upper size-tolerance bound (part_001 line 73). -/
def SIZE_TOLERANCE_MAX : ℚ := 2

/-- Result record of `validateDownloadedFile` (part_001 lines 31-37).  The
extra `warned` field records whether the size-mismatch `console.warn`
branch (part_001 lines 327-341) fired. -/
structure ValidationResult where
  isValid : Bool
  fileSize : Nat
  expectedSize : Option Nat
  sizeRatio : Option ℚ
  error : Option String
  warned : Bool
deriving Repr, DecidableEq

/-- `quickValidateHeader` (part_001 lines 374-407).  The input is the hex
string of the first 12 bytes of the file, or `none` when the read raised.
Every recognised-signature branch and the unknown-signature fallthrough
return valid; only a read error is invalid. -/
def quickValidateHeader (readResult : Option String) : Bool × Option String :=
  match readResult with
  | some hex =>
    if strContains hex "66747970" then (true, none)
    else if startsWithStr hex "1a45dfa3" then (true, none)
    else if startsWithStr hex "494433" || startsWithStr hex "fffb" ||
        startsWithStr hex "fff3" || startsWithStr hex "fff2" then (true, none)
    else if startsWithStr hex "4f676753" then (true, none)
    else if startsWithStr hex "52494646" then (true, none)
    else (true, none)
  | none => (false, some "Read error")

/-- The no-expected-size tail of `validateDownloadedFile` (part_001 lines
351-368): header sniff, accept unless the read failed. -/
def headerBranch (fileSize : Nat) (headerRead : Option String) : ValidationResult :=
  match quickValidateHeader headerRead with
  | (true, _) => ⟨true, fileSize, none, none, none, false⟩
  | (false, err) => ⟨false, fileSize, none, none, err, false⟩

/-- `validateDownloadedFile` (part_001 lines 284-369).  `onDisk` is
`fs.existsSync(filePath)`, `statSize` is `fs.statSync(filePath).size`,
`headerRead` is the 12-byte header read of `quickValidateHeader`. -/
def validateDownloadedFile (onDisk : Bool) (statSize : Nat)
    (headerRead : Option String) (expectedSize : Option Nat)
    (isAudioOnly : Bool) : ValidationResult :=
  if !onDisk then ⟨false, 0, expectedSize, none, some "File does not exist", false⟩
  else
    let fileSize := statSize
    let minSize := if isAudioOnly then 512 else MIN_FILE_SIZE
    if fileSize < minSize then
      ⟨false, fileSize, expectedSize, none, some "File too small", false⟩
    else
      match expectedSize with
      | some e =>
        if 0 < e then
          let sizeRatio : ℚ := (fileSize : ℚ) / (e : ℚ)
          if sizeRatio < SIZE_TOLERANCE_MIN ∨ SIZE_TOLERANCE_MAX < sizeRatio then
            if sizeRatio < 1/10 ∨ 5 < sizeRatio then
              ⟨false, fileSize, some e, some sizeRatio, some "Size mismatch", true⟩
            else ⟨true, fileSize, some e, some sizeRatio, none, true⟩
          else ⟨true, fileSize, some e, some sizeRatio, none, false⟩
        else headerBranch fileSize headerRead
      | none => headerBranch fileSize headerRead

/-- The fallback format list of `DEFAULT_DOWNLOAD_CONFIG` (part_001 lines
79-84). -/
def fallbackFormats : List String :=
  ["best[height<=720]", "best[height<=480]", "best[height<=360]", "best"]

/-- `getFallbackFormat` (part_001 lines 478-486). -/
def getFallbackFormat (attempt : Nat) (originalFormat : String) : String :=
  if attempt = 0 then originalFormat
  else fallbackFormats.getD (min (attempt - 1) (fallbackFormats.length - 1)) ""

/-- The cost ordering of the spec, stated from its words: a
format-selection expression is cheaper when it carries a lower resolution
ceiling ("fallback selection strictly decreases resource cost (lower
resolution ceiling …)").  Extracts the bound N of the first
`height<=N]` constraint of the expression, `none` when unconstrained. -/
def resolutionCeiling (s : String) : Option Nat :=
  go s.data
where
  go : List Char → Option Nat
    | [] => none
    | c :: rest =>
      if listPrefixOf "height<=".data (c :: rest) then
        let after := (c :: rest).drop 8
        let ds := after.takeWhile Char.isDigit
        if 0 < ds.length ∧ listPrefixOf "]".data (after.drop ds.length) then
          some (digitsVal ds)
        else go rest
      else go rest

/-- `isTimeoutError` (part_001 lines 549-558). -/
def isTimeoutError (error : String) : Bool :=
  let lower := lowerStr error
  strContains lower "timeout" || strContains lower "timed out" ||
  strContains lower "etimedout" || strContains lower "econnreset" ||
  strContains lower "socket hang up"

/-- `isNetworkError` (part_001 lines 580-590). -/
def isNetworkError (error : String) : Bool :=
  let lower := lowerStr error
  strContains lower "network" || strContains lower "enotfound" ||
  strContains lower "econnrefused" || strContains lower "econnreset" ||
  strContains lower "socket" || strContains lower "dns"

/-- Modelled from the spec: `isBotDetectionError` is imported by the
v5.2.0 route from the module `lib/ytdlp`, which is not under `src/`.
Spec section 7 describes the AccessBlocked class as "detected via
diagnostic-text indicators of access denial, authentication challenge, or
rate-limiting"; the indicator set follows `isRateLimitError` of part_001,
which the spec groups with it. -/
def isBotDetectionError (message : String) : Bool :=
  let lower := lowerStr message
  strContains lower "429" || strContains lower "rate limit" ||
  strContains lower "too many" || strContains lower "sign in" ||
  strContains lower "bot" || strContains lower "captcha" ||
  strContains lower "403" || strContains lower "forbidden"

/-- Modelled from the spec: `getErrorMessage` is imported by the v5.2.0
route from the missing module `lib/ytdlp`; the spec only requires "a
human-readable message" derived from the diagnostic text, so it is
modelled as the diagnostic text itself.  No claim depends on its value. -/
def getErrorMessage (message : String) : String := message

/-- `TimeoutController` state (part_001 lines 49-53): the `isAborted`
flag.  Timer bookkeeping is not represented. -/
structure TimeoutController where
  isAborted : Bool
deriving Repr, DecidableEq

/-- `abort` of `createTimeoutController` (part_001 lines 424-427):
`clearTimeout` then set `isAborted := true`. -/
def TimeoutController.abort (_ : TimeoutController) : TimeoutController := ⟨true⟩


/-! ## v5.2.0 route (`src/unnamed/part_000`) — supervised close handler -/

/-- Resolution value of `executeDownload` (part_000 lines 273-279). -/
structure ExecResult where
  success : Bool
  error : Option String := none
  isBotDetection : Bool := false
  isTimeout : Bool := false
  isNetworkIssue : Bool := false
deriving Repr, DecidableEq

/-- The `close` listener of `executeDownload` (part_000 lines 363-428),
as the function from the observable state at close time to the resolved
`ExecResult`.  `timeoutController` is the controller state when `close`
fires; the handler's first actions are `clearTimeout(connectTimeout)` and
`timeoutController.abort()` (lines 364-365), and only then does it test
`timeoutController.isAborted` (line 368). -/
def executeDownloadClose (timeoutController : TimeoutController)
    (errorOutput : String) (code : Int) (onDisk : Bool) (fileSize : Nat)
    (headerRead : Option String) (expectedSize : Option Nat)
    (hasVideo : Bool) : ExecResult :=
  let tc := timeoutController.abort
  if tc.isAborted then
    ⟨false, some "Download timed out", false, true, false⟩
  else if isBotDetectionError errorOutput then
    ⟨false, some "Bot detection", true, false, false⟩
  else if strContains errorOutput "No such file or directory" &&
      strContains errorOutput "Frag" then
    ⟨false, some "Fragment error - retrying", false, true, false⟩
  else if code ≠ 0 then
    let errorMsg :=
      if getErrorMessage errorOutput = "" then "Download failed"
      else getErrorMessage errorOutput
    ⟨false, some errorMsg, false, isTimeoutError errorMsg, isNetworkError errorMsg⟩
  else if !onDisk then
    ⟨false, some "File not found after download", false, false, false⟩
  else
    let validation := validateDownloadedFile onDisk fileSize headerRead
      expectedSize (!hasVideo)
    if !validation.isValid && validation.fileSize < 1024 then
      ⟨false, validation.error, false, false, false⟩
    else ⟨true, none, false, false, false⟩


/-! ## v5.2.0 route — the retry orchestrator loop (part_000 lines 490-621) -/

/-- `lastError = result.error || 'Unknown error'` (part_000 line 602):
JavaScript falsiness maps the absent and the empty message to
"Unknown error". -/
def errStr (r : ExecResult) : String :=
  match r.error with
  | none => "Unknown error"
  | some s => if s = "" then "Unknown error" else s

/-- The retry condition of part_000 line 618: the loop continues only when
the failure was bot detection, a timeout, or a network issue. -/
def retryable (r : ExecResult) : Bool :=
  r.isBotDetection || r.isTimeout || r.isNetworkIssue

/-- One iteration of the retry loop as observed from outside: the attempt
ordinal, the format-selection expression passed to `executeDownload`, the
`forceRefresh` flag passed to `getCachedCookies`, the attempt's resolved
result, whether the failure branch called `invalidateCookiesCache`, and
whether it deleted the attempt's temp file. -/
structure LoopRec where
  attempt : Nat
  formatId : String
  forceRefresh : Bool
  result : ExecResult
  invalidatedCookies : Bool
  deletedTempFile : Bool
deriving Repr, DecidableEq

instance : Inhabited LoopRec :=
  ⟨⟨0, "", false, ⟨false, none, false, false, false⟩, false, false⟩⟩

/-- `MAX_RETRIES` (part_000 line 53). -/
def MAX_RETRIES : Nat := 3

/-- The retry loop body (part_000 lines 496-621), parametric in the
outcome `results attempt` of each supervised attempt.  Returns the list of
iteration records together with the final value of the mutable `lastError`
(the failure surfaced after the loop, part_000 lines 624-674).  The loop
state threads `lastError`, `lastIsBotDetection` and `lastIsTimeout`
exactly as the source mutates them; `fuel` counts the iterations left of
`for (let attempt = 1; attempt <= MAX_RETRIES; attempt++)`. -/
def runLoopAux (results : Nat → ExecResult) (requestedFormatId : String) :
    Nat → Nat → String → Bool → Bool → List LoopRec × String
  | 0, _, lastError, _, _ => ([], lastError)
  | fuel + 1, attempt, lastError, lastIsBotDetection, lastIsTimeout =>
    let formatId :=
      if attempt > 1 && (lastIsTimeout || lastError ≠ "") then
        getFallbackFormat (attempt - 1) requestedFormatId
      else requestedFormatId
    let forceRefresh :=
      lastIsBotDetection || (attempt > 1 && strContains lastError "403")
    let r := results attempt
    if r.success then
      ([⟨attempt, formatId, forceRefresh, r, false, false⟩], lastError)
    else
      let e := errStr r
      let inval := r.isBotDetection || strContains e "403" || strContains e "429"
      let rec0 : LoopRec := ⟨attempt, formatId, forceRefresh, r, inval, true⟩
      if retryable r then
        let rest := runLoopAux results requestedFormatId fuel (attempt + 1) e
          r.isBotDetection r.isTimeout
        (rec0 :: rest.1, rest.2)
      else ([rec0], e)

/-- The whole retry loop of `POST` (part_000): three attempts starting
from empty failure state. -/
def runLoop (results : Nat → ExecResult) (requestedFormatId : String) :
    List LoopRec × String :=
  runLoopAux results requestedFormatId MAX_RETRIES 1 "" false false

/-- Record at position `i` of a trace (defaulted, to avoid bound proofs). -/
def recAt (t : List LoopRec) (i : Nat) : LoopRec := t.getD i default


/-! ## v5.2.0 route — progress parser and publisher (part_000 lines 160-201, 327-344) -/

/-- The `(\\d+\\.?\\d*)%` tail of the download-progress pattern: at least
one whitespace, an integer digit run, an optional dot and fraction run,
then a percent sign; value as parsed by `parseFloat`. -/
def matchPercent (cs : List Char) : Option ℚ :=
  let ws := cs.takeWhile Char.isWhitespace
  if ws.length = 0 then none
  else
    let rest := cs.drop ws.length
    let intDigits := rest.takeWhile Char.isDigit
    if intDigits.length = 0 then none
    else
      let rest2 := rest.drop intDigits.length
      match rest2 with
      | '.' :: rest3 =>
        let fracDigits := rest3.takeWhile Char.isDigit
        (match rest3.drop fracDigits.length with
        | '%' :: _ =>
          some ((digitsVal intDigits : ℚ) +
            (digitsVal fracDigits : ℚ) / ((10 : ℚ) ^ fracDigits.length))
        | _ => none)
      | '%' :: _ => some ((digitsVal intDigits : ℚ))
      | _ => none

/-- Search for the download-progress pattern of part_000 line 162
anywhere in the line: a literal `[download]` followed by whitespace and a
percentage. -/
def searchDownloadPercent : List Char → Option ℚ
  | [] => none
  | c :: rest =>
    (if listPrefixOf "[download]".data (c :: rest) then
      match matchPercent ((c :: rest).drop 10) with
      | some q => some q
      | none => searchDownloadPercent rest
    else searchDownloadPercent rest)

/-- Search for the `(\\d+)\\s*fragments` pattern of part_000 line 189. -/
def searchFragCount : List Char → Option Nat
  | [] => none
  | c :: rest =>
    (if c.isDigit then
      let ds := (c :: rest).takeWhile Char.isDigit
      let after := (c :: rest).drop ds.length
      let afterWs := after.drop (after.takeWhile Char.isWhitespace).length
      if listPrefixOf "fragments".data afterWs then some (digitsVal ds)
      else searchFragCount rest
    else searchFragCount rest)

/-- A parsed progress event of the v5.2.0 route. -/
structure ProgressInfo where
  progress : ℚ
  message : String
  phase : String
deriving Repr, DecidableEq

/-- `parseProgress` of the v5.2.0 route (part_000 lines 160-201), with its
pattern priority: percentage (scaled by 0.9 and capped at 90), merger
(92), ffmpeg (94), destination (5), fragment count (3), info extraction
(2), otherwise no event. -/
def parseProgress (stderr : String) : Option ProgressInfo :=
  match searchDownloadPercent stderr.data with
  | some p =>
    some ⟨min (p * (9/10)) 90, "Downloading: " ++ toString (round p) ++ "%",
      "downloading"⟩
  | none =>
    if strContains stderr "[Merger]" || strContains stderr "Merging formats" then
      some ⟨92, "Merging video and audio...", "merging"⟩
    else if strContains stderr "[ffmpeg]" then
      some ⟨94, "Processing with FFmpeg...", "processing"⟩
    else if strContains stderr "[download] Destination:" then
      some ⟨5, "Starting download...", "downloading"⟩
    else
      match (if strContains stderr "fragments" then searchFragCount stderr.data
        else none) with
      | some n =>
        some ⟨3, "Downloading " ++ toString n ++ " fragments...", "downloading"⟩
      | none =>
        if strContains stderr "[youtube]" || strContains stderr "[info]" then
          some ⟨2, "Extracting video info...", "extracting"⟩
        else none

/-- The stderr listener of the v5.2.0 `executeDownload` (part_000 lines
327-344) publishes every parsed percentage directly (no clamping): the
sequence published for the correlation id is the parsed progress of each
chunk in order. -/
def publishedSeq (chunks : List String) : List ℚ :=
  chunks.filterMap (fun c => (parseProgress c).map (fun p => p.progress))

/-! ## `killProcessWithTimeout` (part_001 lines 436-468) -/

/-- Signals the termination procedure can send. -/
inductive Sig
  | sigterm
  | sigkill
deriving Repr, DecidableEq

/-- Observable behaviour of the child process under termination:
whether it has a pid, whether `process.kill(signal)` throws (e.g. an
already-reaped process), and the delay after SIGTERM at which its
`close` event fires (`none` = it never exits on its own). -/
structure KillEnv where
  hasPid : Bool
  termThrows : Bool
  exitAfterTerm : Option Nat
deriving Repr, DecidableEq

/-- `killProcessWithTimeout` (part_001 lines 436-468) as the timed trace
of signals it delivers.  No pid: resolve with no signal.  The graceful
signal (`SIGTERM` by default) is sent synchronously at time 0; if the
kill call throws, the escalation timer is cleared and nothing further is
sent; otherwise the `SIGKILL` escalation timer fires at `timeoutMs`
unless the `close` event cleared it first. -/
def killProcessWithTimeout (env : KillEnv) (timeoutMs : Nat) : List (Nat × Sig) :=
  if !env.hasPid then []
  else if env.termThrows then []
  else
    (0, Sig.sigterm) ::
      (match env.exitAfterTerm with
      | some t => if t < timeoutMs then [] else [(timeoutMs, Sig.sigkill)]
      | none => [(timeoutMs, Sig.sigkill)])

/-! ## v5.4.2 route (`src/app/api/download/route.ts`) -/

/-- A parsed progress event of the v5.4.2 route parser (route.ts lines
104-127): raw percentage, speed and ETA text, phase tag. -/
structure ParsedProgress where
  progress : ℚ
  speed : String
  eta : String
  phase : String
deriving Repr, DecidableEq

/-- Publisher state of the v5.4.2 stderr listener (route.ts lines
355-356): `lastProgress` and `lastPhase`. -/
structure PubState where
  lastProgress : ℚ
  lastPhase : String
deriving Repr, DecidableEq

/-- The overall-percentage mapping of the v5.4.2 publisher (route.ts
lines 384-394): downloading → `round (10 + raw * 0.75)` (the 10-85%
window), extracting → 88, merging → 92, otherwise
`max lastProgress raw`. -/
def overallOf (st : PubState) (p : ParsedProgress) : ℚ :=
  if p.phase = "downloading" then ((round ((10 : ℚ) + p.progress * (3/4)) : ℤ) : ℚ)
  else if p.phase = "extracting" then 88
  else if p.phase = "merging" then 92
  else max st.lastProgress p.progress

/-- One parsed event through the v5.4.2 publisher (route.ts lines
376-407): publish `min overall 95` only when the overall value strictly
exceeds `lastProgress` (route.ts lines 396-399). -/
def publishStep (st : PubState) (p : ParsedProgress) : PubState × Option ℚ :=
  let overallProgress : ℚ := overallOf st p
  if st.lastProgress < overallProgress then
    (⟨overallProgress, p.phase⟩, some (min overallProgress 95))
  else (⟨st.lastProgress, p.phase⟩, none)

/-- Run the v5.4.2 publisher over a sequence of parsed events, collecting
the published percentages in order. -/
def runPublisher : PubState → List ParsedProgress → List ℚ
  | _, [] => []
  | st, p :: rest =>
    (match publishStep st p with
    | (st2, some q) => q :: runPublisher st2 rest
    | (st2, none) => runPublisher st2 rest)

/-- The published percentage sequence of one v5.4.2 attempt, from the
initial state `lastProgress = 0`, `lastPhase = 'downloading'`. -/
def publishedProgress (ps : List ParsedProgress) : List ℚ :=
  runPublisher ⟨0, "downloading"⟩ ps

/-- Observable effect of the v5.4.2 `close` listener (route.ts lines
418-450): the resolved result, the progress update it publishes, and
whether it invalidated the cookie cache. -/
structure RouteCloseEffect where
  success : Bool
  error : Option String
  published : Option (ℚ × String × String)
  cookiesInvalidated : Bool
deriving Repr, DecidableEq

/-- The v5.4.2 `close` listener (route.ts lines 418-450): exit status 0
unconditionally resolves success and publishes 100% with phase
`complete`; a non-zero status classifies the accumulated stderr text into
a user-facing message (invalidating cookies on bot indicators). -/
def routeCloseHandler (code : Int) (errorOutput : String) : RouteCloseEffect :=
  if code = 0 then
    ⟨true, none, some (100, "Download complete!", "complete"), false⟩
  else if strContains errorOutput "bot" || strContains errorOutput "Sign in" ||
      strContains errorOutput "confirm" then
    ⟨false, some "YouTube blocked the request. Cookies may be expired.", none, true⟩
  else if strContains errorOutput "unavailable" ||
      strContains errorOutput "not available" ||
      strContains errorOutput "Private" then
    ⟨false, some "Video is unavailable, private, or region-locked.", none, false⟩
  else if strContains errorOutput "format" || strContains errorOutput "no suitable" then
    ⟨false, some "Requested format not available. Try a different quality.", none, false⟩
  else if strContains errorOutput "ffmpeg" || strContains errorOutput "merge" then
    ⟨false, some "Failed to merge video/audio. Try audio-only or different quality.", none, false⟩
  else ⟨false, some "Download failed", none, false⟩

/-! ## Temp-file cleanup discipline (route.ts lines 130-143, 519-541; part_000 lines 568-614, 658, 681) -/

/-- State of one attempt's temp file: whether the path is on disk, how
many times it has actually been unlinked, and whether the
`activeDownloads` registry still holds the attempt's entry. -/
structure CleanupState where
  onDisk : Bool
  unlinks : Nat
  mapEntry : Bool
deriving Repr, DecidableEq

/-- The designated cleanup paths that can touch one attempt's temp file:
stream completion (route.ts 525-530), stream error (531-535), stream
cancellation (537-540), the cancellation endpoint (route.ts DELETE,
574-596), the failed-download cleanup (route.ts 468, 497), the v5.2.0
retry-rotation delete (part_000 614) and the v5.2.0 final/ success/catch
deletes (part_000 573, 658, 681). -/
inductive CleanupEvent
  | streamEnd
  | streamError
  | streamCancel
  | cancelRequest
  | failureCleanup
  | retryRotationDelete
  | finalCleanup
deriving Repr, DecidableEq

/-- `deleteTempFile` on the attempt's path (route.ts lines 91-99): unlink
only when the path still exists. -/
def deleteTempFileStep (s : CleanupState) : CleanupState :=
  if s.onDisk then ⟨false, s.unlinks + 1, s.mapEntry⟩ else s

/-- `cleanupDownload` (route.ts lines 132-143): only when the registry
still holds the entry, delete the temp file and drop the entry. -/
def cleanupDownloadStep (s : CleanupState) : CleanupState :=
  if s.mapEntry then
    let s2 := deleteTempFileStep s
    ⟨s2.onDisk, s2.unlinks, false⟩
  else s

/-- Effect of each cleanup path on the attempt's temp-file state.  The
stream-end handler (route.ts 525-529) deletes the file directly and drops
the registry entry; the error/cancel/failure paths go through
`cleanupDownload`; the v5.2.0 paths call `deleteTempFile` directly. -/
def applyCleanup (s : CleanupState) : CleanupEvent → CleanupState
  | CleanupEvent.streamEnd =>
    let s2 := deleteTempFileStep s
    ⟨s2.onDisk, s2.unlinks, false⟩
  | CleanupEvent.streamError => cleanupDownloadStep s
  | CleanupEvent.streamCancel => cleanupDownloadStep s
  | CleanupEvent.cancelRequest => cleanupDownloadStep s
  | CleanupEvent.failureCleanup => cleanupDownloadStep s
  | CleanupEvent.retryRotationDelete => deleteTempFileStep s
  | CleanupEvent.finalCleanup => deleteTempFileStep s

/-- Fold a sequence of cleanup events over a state. -/
def applyCleanups (s : CleanupState) (es : List CleanupEvent) : CleanupState :=
  es.foldl applyCleanup s

/-- A live attempt: its temp file is on disk, never unlinked yet, and its
registry entry is present. -/
def liveAttempt : CleanupState := ⟨true, 0, true⟩

/-! ## `deleteTempFile` itself (route.ts lines 91-99, part_000 lines 88-98) -/

/-- The filesystem as the set of paths that exist (`fs.existsSync`). -/
def Fs : Type := String → Bool

/-- `fs.unlinkSync`: removes the path, or throws (modelled by the
`unlinkErr` oracle, e.g. a permission error). -/
def unlinkSync (unlinkErr : String → Bool) (fs : Fs) (p : String) :
    Except String Fs :=
  if unlinkErr p then Except.error "unlink failed"
  else Except.ok (fun q => if q = p then false else fs q)

/-- `deleteTempFile` (route.ts lines 91-99; identical in part_000 lines
88-98): return immediately on a null/undefined path; otherwise, inside
try/catch, unlink the path only if it exists, swallowing any error. -/
def deleteTempFile (unlinkErr : String → Bool) (fs : Fs)
    (filePath : Option String) : Except String Fs :=
  match filePath with
  | none => Except.ok fs
  | some path =>
    (match (if fs path then unlinkSync unlinkErr fs path else Except.ok fs) with
    | Except.ok fs2 => Except.ok fs2
    | Except.error _ => Except.ok fs)

/-! ## Concrete attempt-outcome environments for witnesses -/

/-- First attempt times out, the second succeeds. -/
def timeoutThenOk : Nat → ExecResult := fun n =>
  if n = 1 then ⟨false, some "Download timed out", false, true, false⟩
  else ⟨true, none, false, false, false⟩

/-- First attempt fails with bot detection, the second succeeds. -/
def botThenOk : Nat → ExecResult := fun n =>
  if n = 1 then ⟨false, some "Bot detection", true, false, false⟩
  else ⟨true, none, false, false, false⟩

/-- First attempt fails with a network issue, the second succeeds. -/
def netThenOk : Nat → ExecResult := fun n =>
  if n = 1 then ⟨false, some "network error", false, false, true⟩
  else ⟨true, none, false, false, false⟩

/-! ## Theorems -/

theorem quickValidateHeader_some (hex : String) :
    quickValidateHeader (some hex) = (true, none) := by
  simp only [quickValidateHeader]
  split <;> simp

theorem headerBranch_read_ok (fileSize : Nat) (hex : String) :
    headerBranch fileSize (some hex) = ⟨true, fileSize, none, none, none, false⟩ := by
  simp [headerBranch, quickValidateHeader_some]

/-- C1: `validateDownloadedFile` rejects exactly when the actual size is
below the media-kind floor (512 bytes audio-only, 1024 bytes video) or an
expected size is present and the actual/expected ratio falls outside
[0.1, 5.0]; otherwise it accepts, warning exactly when the ratio falls
outside [0.5, 2.0].  Stated for a file that exists on disk and whose
header read succeeds; the expected size, when present, is positive (the
callers pass `body.filesize || body.filesizeApprox || null`, so a present
hint is nonzero). -/
theorem validateDownloadedFile_reject_iff (A : Nat) (E : Option Nat)
    (isAudioOnly : Bool) (hdr : String) (hE : ∀ e ∈ E, 0 < e) :
    ((validateDownloadedFile true A (some hdr) E isAudioOnly).isValid = false ↔
      (A < (if isAudioOnly then 512 else MIN_FILE_SIZE) ∨
        ∃ e ∈ E, ((A : ℚ) / (e : ℚ) < 1/10 ∨ 5 < (A : ℚ) / (e : ℚ)))) ∧
    ((validateDownloadedFile true A (some hdr) E isAudioOnly).isValid = true →
      ((validateDownloadedFile true A (some hdr) E isAudioOnly).warned = true ↔
        ∃ e ∈ E, ((A : ℚ) / (e : ℚ) < 1/2 ∨ 2 < (A : ℚ) / (e : ℚ)))) := by
  cases E with
  | none =>
    simp only [validateDownloadedFile, headerBranch_read_ok]
    split_ifs <;> simp_all
  | some e =>
    have he : 0 < e := hE e rfl
    by_cases hfloor : A < (if isAudioOnly then 512 else MIN_FILE_SIZE)
    · simp [validateDownloadedFile, hfloor, he]
    · by_cases hband : (A : ℚ) / (e : ℚ) < 2⁻¹ ∨ 2 < (A : ℚ) / (e : ℚ)
      · by_cases hgross : (A : ℚ) / (e : ℚ) < 10⁻¹ ∨ 5 < (A : ℚ) / (e : ℚ)
        · simp [validateDownloadedFile, SIZE_TOLERANCE_MIN, SIZE_TOLERANCE_MAX,
            hfloor, hband, hgross, he]
        · simp [validateDownloadedFile, SIZE_TOLERANCE_MIN, SIZE_TOLERANCE_MAX,
            hfloor, hband, hgross, he]
      · have hgross : ¬((A : ℚ) / (e : ℚ) < 10⁻¹ ∨ 5 < (A : ℚ) / (e : ℚ)) := by
          push_neg at hband ⊢
          refine ⟨le_trans (by norm_num) hband.1, le_trans hband.2 (by norm_num)⟩
        simp [validateDownloadedFile, SIZE_TOLERANCE_MIN, SIZE_TOLERANCE_MAX,
          hfloor, hband, hgross, he]

/-- Witness for C1 at a concrete input: actual size 300000 with expected
size 50000 gives ratio 6, outside the outer band, hence rejected. -/
theorem validateDownloadedFile_reject_iff_witness :
    (validateDownloadedFile true 300000 (some "000000206674797069736f6d")
      (some 50000) false).isValid = false :=
  (validateDownloadedFile_reject_iff 300000 (some 50000) false
      "000000206674797069736f6d" (by decide)).1.mpr
    (Or.inr ⟨50000, rfl, Or.inr (by norm_num)⟩)

theorem errStr_ne_empty (r : ExecResult) : errStr r ≠ "" := by
  unfold errStr
  cases r.error with
  | none => decide
  | some s =>
    by_cases h : s = ""
    · simp [h]
    · simp [h]

theorem runLoopAux_length_pos (results : Nat → ExecResult) (req : String)
    (fuel attempt : Nat) (le : String) (lb lt : Bool) (h : 0 < fuel) :
    0 < (runLoopAux results req fuel attempt le lb lt).1.length := by
  cases fuel with
  | zero => omega
  | succ n =>
    simp only [runLoopAux]
    split
    · simp
    · split
      · simp
      · simp

theorem runLoopAux_length_le (results : Nat → ExecResult) (req : String) :
    ∀ (fuel attempt : Nat) (le : String) (lb lt : Bool),
      (runLoopAux results req fuel attempt le lb lt).1.length ≤ fuel := by
  intro fuel
  induction fuel with
  | zero => intro attempt le lb lt; simp [runLoopAux]
  | succ n ih =>
    intro attempt le lb lt
    simp only [runLoopAux]
    split
    · simp
    · split
      · simpa using ih (attempt + 1) _ _ _
      · simp

theorem runLoopAux_succ (results : Nat → ExecResult) (req : String)
    (fuel attempt : Nat) (le : String) (lb lt : Bool) :
    runLoopAux results req (fuel + 1) attempt le lb lt =
      (let formatId :=
        if attempt > 1 && (lt || le ≠ "") then
          getFallbackFormat (attempt - 1) req
        else req
      let forceRefresh := lb || (attempt > 1 && strContains le "403")
      let r := results attempt
      if r.success then
        ([⟨attempt, formatId, forceRefresh, r, false, false⟩], le)
      else
        let e := errStr r
        let inval := r.isBotDetection || strContains e "403" || strContains e "429"
        let rec0 : LoopRec := ⟨attempt, formatId, forceRefresh, r, inval, true⟩
        if retryable r then
          let rest := runLoopAux results req fuel (attempt + 1) e
            r.isBotDetection r.isTimeout
          (rec0 :: rest.1, rest.2)
        else ([rec0], e)) := rfl

theorem recAt_cons_zero (a : LoopRec) (l : List LoopRec) : recAt (a :: l) 0 = a := rfl

theorem recAt_cons_succ (a : LoopRec) (l : List LoopRec) (i : Nat) :
    recAt (a :: l) (i + 1) = recAt l i := rfl

theorem runLoopAux_step_spec (results : Nat → ExecResult) (req : String) :
    ∀ (fuel attempt : Nat) (le : String) (lb lt : Bool) (i : Nat),
      i < (runLoopAux results req fuel attempt le lb lt).1.length →
      (((recAt (runLoopAux results req fuel attempt le lb lt).1 i).result.success = false →
        (recAt (runLoopAux results req fuel attempt le lb lt).1 i).deletedTempFile = true) ∧
      (i + 1 < (runLoopAux results req fuel attempt le lb lt).1.length ↔
        ((recAt (runLoopAux results req fuel attempt le lb lt).1 i).result.success = false ∧
        retryable (recAt (runLoopAux results req fuel attempt le lb lt).1 i).result = true ∧
        i + 1 < fuel))) := by
  intro fuel
  induction fuel with
  | zero => intro attempt le lb lt i hi; simp [runLoopAux] at hi
  | succ n ih =>
    intro attempt le lb lt i hi
    rw [runLoopAux_succ] at hi ⊢
    by_cases hs : (results attempt).success = true
    · simp only [hs, if_pos] at hi ⊢
      simp only [List.length_cons, List.length_nil] at hi
      interval_cases i
      · simp [recAt_cons_zero, hs]
    · simp only [Bool.not_eq_true] at hs
      simp only [hs, Bool.false_eq_true, if_false] at hi ⊢
      by_cases hr : retryable (results attempt) = true
      · simp only [hr, if_pos] at hi ⊢
        cases i with
        | zero =>
          simp only [recAt_cons_zero, hs, retryable] at hr ⊢
          refine ⟨fun _ => trivial, ?_⟩
          simp only [List.length_cons, hr]
          constructor
          · intro h1
            have hlen := runLoopAux_length_le results req n (attempt + 1)
              (errStr (results attempt)) (results attempt).isBotDetection
              (results attempt).isTimeout
            exact ⟨trivial, trivial, by omega⟩
          · rintro ⟨-, -, hfuel⟩
            have := runLoopAux_length_pos results req n (attempt + 1)
              (errStr (results attempt)) (results attempt).isBotDetection
              (results attempt).isTimeout (by omega)
            simpa using this
        | succ j =>
          simp only [recAt_cons_succ]
          simp only [List.length_cons] at hi
          have hj : j < (runLoopAux results req n (attempt + 1)
              (errStr (results attempt)) (results attempt).isBotDetection
              (results attempt).isTimeout).1.length := by omega
          have := ih (attempt + 1) (errStr (results attempt))
            (results attempt).isBotDetection (results attempt).isTimeout j hj
          refine ⟨this.1, ?_⟩
          simp only [List.length_cons]
          rw [show j + 1 + 1 < (runLoopAux results req n (attempt + 1)
              (errStr (results attempt)) (results attempt).isBotDetection
              (results attempt).isTimeout).1.length + 1 ↔
            j + 1 < (runLoopAux results req n (attempt + 1)
              (errStr (results attempt)) (results attempt).isBotDetection
              (results attempt).isTimeout).1.length from by omega]
          rw [this.2]
          constructor <;> rintro ⟨h1, h2, h3⟩ <;> exact ⟨h1, h2, by omega⟩
      · simp only [Bool.not_eq_true] at hr
        simp only [hr, Bool.false_eq_true, if_false] at hi ⊢
        simp only [List.length_cons, List.length_nil] at hi
        interval_cases i
        · simp [recAt_cons_zero, hs, hr]


theorem runLoopAux_final_err (results : Nat → ExecResult) (req : String) :
    ∀ (fuel attempt : Nat) (le : String) (lb lt : Bool),
      0 < (runLoopAux results req fuel attempt le lb lt).1.length →
      (recAt (runLoopAux results req fuel attempt le lb lt).1
        ((runLoopAux results req fuel attempt le lb lt).1.length - 1)).result.success = false →
      (runLoopAux results req fuel attempt le lb lt).2 =
        errStr (recAt (runLoopAux results req fuel attempt le lb lt).1
          ((runLoopAux results req fuel attempt le lb lt).1.length - 1)).result := by
  intro fuel
  induction fuel with
  | zero => intro attempt le lb lt h; simp [runLoopAux] at h
  | succ n ih =>
    intro attempt le lb lt hlen hfail
    rw [runLoopAux_succ] at hlen hfail ⊢
    by_cases hs : (results attempt).success = true
    · simp only [hs, if_pos] at hfail
      simp [recAt_cons_zero, hs] at hfail
    · simp only [Bool.not_eq_true] at hs
      simp only [hs, Bool.false_eq_true, if_false] at hlen hfail ⊢
      by_cases hr : retryable (results attempt) = true
      · simp only [hr, if_pos] at hlen hfail ⊢
        cases hn : n with
        | zero =>
          subst hn
          simp only [runLoopAux] at hlen hfail ⊢
          simp [recAt_cons_zero]
        | succ m =>
          subst hn
          have hpos := runLoopAux_length_pos results req (m + 1) (attempt + 1)
            (errStr (results attempt)) (results attempt).isBotDetection
            (results attempt).isTimeout (by omega)
          simp only [List.length_cons] at hfail ⊢
          rw [show (runLoopAux results req (m + 1) (attempt + 1)
              (errStr (results attempt)) (results attempt).isBotDetection
              (results attempt).isTimeout).1.length + 1 - 1 =
            ((runLoopAux results req (m + 1) (attempt + 1)
              (errStr (results attempt)) (results attempt).isBotDetection
              (results attempt).isTimeout).1.length - 1) + 1 from by omega] at hfail ⊢
          rw [recAt_cons_succ] at hfail ⊢
          exact ih (attempt + 1) (errStr (results attempt))
            (results attempt).isBotDetection (results attempt).isTimeout hpos hfail
      · simp only [Bool.not_eq_true] at hr
        simp only [hr, Bool.false_eq_true, if_false] at hlen hfail ⊢
        simp [recAt_cons_zero]

/-- C5: in the v5.2.0 retry loop, every failed attempt deletes its temp
file in the failure branch, the loop runs another attempt exactly when
the failure classification is retryable (bot detection, timeout, or
network issue) and attempts remain within `MAX_RETRIES`, and when the
last attempt failed the loop surfaces that attempt's error. -/
theorem retry_deletes_and_continues_iff_retryable (results : Nat → ExecResult)
    (req : String) :
    (∀ i, i < (runLoop results req).1.length →
      (((recAt (runLoop results req).1 i).result.success = false →
        (recAt (runLoop results req).1 i).deletedTempFile = true) ∧
      (i + 1 < (runLoop results req).1.length ↔
        ((recAt (runLoop results req).1 i).result.success = false ∧
        retryable (recAt (runLoop results req).1 i).result = true ∧
        i + 1 < MAX_RETRIES)))) ∧
    (0 < (runLoop results req).1.length →
      (recAt (runLoop results req).1
        ((runLoop results req).1.length - 1)).result.success = false →
      (runLoop results req).2 =
        errStr (recAt (runLoop results req).1
          ((runLoop results req).1.length - 1)).result) :=
  ⟨fun i hi => runLoopAux_step_spec results req MAX_RETRIES 1 "" false false i hi,
    runLoopAux_final_err results req MAX_RETRIES 1 "" false false⟩

/-- Witness for C5: with a network failure on attempt 1 and success on
attempt 2, the failed attempt's temp file is deleted and a second attempt
runs. -/
theorem retry_deletes_and_continues_iff_retryable_witness :
    (recAt (runLoop netThenOk "fmt").1 0).deletedTempFile = true ∧
    1 < (runLoop netThenOk "fmt").1.length := by
  have h := (retry_deletes_and_continues_iff_retryable netThenOk "fmt").1 0 (by decide)
  exact ⟨h.1 (by decide), h.2.mpr (by decide)⟩

theorem runLoopAux_formatId (results : Nat → ExecResult) (req : String) :
    ∀ (fuel attempt : Nat) (le : String) (lb lt : Bool), 1 < attempt → le ≠ "" →
      ∀ i, i < (runLoopAux results req fuel attempt le lb lt).1.length →
        (recAt (runLoopAux results req fuel attempt le lb lt).1 i).formatId =
          getFallbackFormat (attempt - 1 + i) req := by
  intro fuel
  induction fuel with
  | zero => intro attempt le lb lt h2 hle i hi; simp [runLoopAux] at hi
  | succ n ih =>
    intro attempt le lb lt h2 hle i hi
    rw [runLoopAux_succ] at hi ⊢
    have hcond : (attempt > 1 && (lt || le ≠ "")) = true := by
      simp [h2, hle]
    rw [hcond] at hi ⊢
    by_cases hs : (results attempt).success = true
    · simp only [hs, if_pos] at hi ⊢
      simp only [List.length_cons, List.length_nil] at hi
      interval_cases i
      · simp [recAt_cons_zero]
    · simp only [Bool.not_eq_true] at hs
      simp only [hs, Bool.false_eq_true, if_false] at hi ⊢
      by_cases hr : retryable (results attempt) = true
      · simp only [hr, if_pos] at hi ⊢
        cases i with
        | zero => simp [recAt_cons_zero]
        | succ j =>
          rw [recAt_cons_succ]
          simp only [List.length_cons] at hi
          have := ih (attempt + 1) (errStr (results attempt))
            (results attempt).isBotDetection (results attempt).isTimeout
            (by omega) (errStr_ne_empty _) j (by omega)
          rw [this]
          congr 1
          omega
      · simp only [Bool.not_eq_true] at hr
        simp only [hr, Bool.false_eq_true, if_false] at hi ⊢
        simp only [List.length_cons, List.length_nil] at hi
        interval_cases i
        · simp [recAt_cons_zero]

theorem runLoop_formatId (results : Nat → ExecResult) (req : String) :
    ∀ i, i < (runLoop results req).1.length →
      (recAt (runLoop results req).1 i).formatId =
        (if i = 0 then req else getFallbackFormat i req) := by
  intro i hi
  have hunf : runLoop results req = runLoopAux results req (2 + 1) 1 "" false false := rfl
  rw [hunf] at hi ⊢
  rw [runLoopAux_succ] at hi ⊢
  have hcond : ((1 : Nat) > 1 && (false || ("" : String) ≠ "")) = false := by decide
  rw [hcond] at hi ⊢
  simp only [Bool.false_eq_true, if_false] at hi ⊢
  by_cases hs : (results 1).success = true
  · simp only [hs, if_pos] at hi ⊢
    simp only [List.length_cons, List.length_nil] at hi
    interval_cases i
    · simp [recAt_cons_zero]
  · simp only [Bool.not_eq_true] at hs
    simp only [hs, Bool.false_eq_true, if_false] at hi ⊢
    by_cases hr : retryable (results 1) = true
    · simp only [hr, if_pos] at hi ⊢
      cases i with
      | zero => simp [recAt_cons_zero]
      | succ j =>
        rw [recAt_cons_succ]
        simp only [List.length_cons] at hi
        have := runLoopAux_formatId results req 2 (1 + 1) (errStr (results 1))
          (results 1).isBotDetection (results 1).isTimeout (by omega)
          (errStr_ne_empty _) j (by omega)
        rw [this]
        simp only [Nat.succ_ne_zero, if_false, Nat.add_sub_cancel]
        congr 1
        omega
    · simp only [Bool.not_eq_true] at hr
      simp only [hr, Bool.false_eq_true, if_false] at hi ⊢
      simp only [List.length_cons, List.length_nil] at hi
      interval_cases i
      · simp [recAt_cons_zero]

/-- C6 (amended): across the retry sequence, provided the originally
requested expression is not itself one of the fallback entries actually
used (`best[height<=720]`, `best[height<=480]`), no selection expression
is used for two different attempts, and from the second retry on the
fallback entries strictly decrease in resolution ceiling (the spec's cost
ordering).  The step from the original expression to the first fallback
entry carries no comparable ceiling claim, and when the original equals a
fallback entry the expression repeats (see the counterexample). -/
theorem fallback_distinct_and_decreasing (results : Nat → ExecResult)
    (req : String) (h0 : req ≠ "best[height<=720]")
    (h1 : req ≠ "best[height<=480]") :
    (∀ i j, i < j → j < (runLoop results req).1.length →
      (recAt (runLoop results req).1 i).formatId ≠
        (recAt (runLoop results req).1 j).formatId) ∧
    (∀ j, 2 ≤ j → j < (runLoop results req).1.length →
      ∃ a b,
        resolutionCeiling ((recAt (runLoop results req).1 (j - 1)).formatId) = some a ∧
        resolutionCeiling ((recAt (runLoop results req).1 j).formatId) = some b ∧
        b < a) := by
  have hlen : (runLoop results req).1.length ≤ 3 :=
    runLoopAux_length_le results req 3 1 "" false false
  have e1 : getFallbackFormat 1 req = "best[height<=720]" := rfl
  have e2 : getFallbackFormat 2 req = "best[height<=480]" := rfl
  constructor
  · intro i j hij hj
    have hfi := runLoop_formatId results req i (by omega)
    have hfj := runLoop_formatId results req j (by omega)
    rw [hfi, hfj]
    have hi3 : i < 3 := by omega
    have hj3 : j < 3 := by omega
    interval_cases i <;> interval_cases j <;> simp_all
  · intro j h2j hj
    have hj2 : j = 2 := by omega
    subst hj2
    rw [show (2 : Nat) - 1 = 1 from rfl,
      runLoop_formatId results req 1 (by omega),
      runLoop_formatId results req 2 (by omega)]
    have i1 : (if (1 : Nat) = 0 then req else getFallbackFormat 1 req) =
        "best[height<=720]" := by norm_num [e1]
    have i2 : (if (2 : Nat) = 0 then req else getFallbackFormat 2 req) =
        "best[height<=480]" := by norm_num [e2]
    rw [i1, i2]
    exact ⟨720, 480, by decide, by decide, by omega⟩

/-- Witness for C6: with an original format `137+140` distinct from the
fallback entries, attempts 1 and 2 use different expressions. -/
theorem fallback_distinct_and_decreasing_witness :
    (recAt (runLoop timeoutThenOk "137+140").1 0).formatId ≠
      (recAt (runLoop timeoutThenOk "137+140").1 1).formatId :=
  (fallback_distinct_and_decreasing timeoutThenOk "137+140" (by decide)
    (by decide)).1 0 1 (by omega) (by decide)

/-- Counterexample to C6 as stated: when the requested expression is
itself the first fallback entry `best[height<=720]` and attempt 1 fails
with a timeout, attempt 2 uses the identical selection expression, so an
expression is used for two different attempts and the sequence is not
strictly decreasing in cost. -/
theorem fallback_repeats_original_counterexample :
    (recAt (runLoop timeoutThenOk "best[height<=720]").1 0).attempt = 1 ∧
    (recAt (runLoop timeoutThenOk "best[height<=720]").1 1).attempt = 2 ∧
    (recAt (runLoop timeoutThenOk "best[height<=720]").1 0).formatId =
      (recAt (runLoop timeoutThenOk "best[height<=720]").1 1).formatId := by
  decide

/-- C7 (amended): when attempt 1 fails with a failure classified as an
access block (bot detection), the failure branch invalidates the cookie
cache and attempt 2 acquires its credential with `forceRefresh = true` —
but attempt 2 does NOT reuse the failed attempt's expression: because the
retry branch substitutes a fallback format whenever the previous attempt
recorded any error (`lastIsTimeout || lastError`, part_000 line 500), an
access-block failure downgrades the format like every other retryable
failure. -/
theorem accessBlocked_refresh_and_fallback (results : Nat → ExecResult)
    (req : String) (hfail : (results 1).success = false)
    (hbot : (results 1).isBotDetection = true) :
    1 < (runLoop results req).1.length ∧
    (recAt (runLoop results req).1 0).invalidatedCookies = true ∧
    (recAt (runLoop results req).1 1).forceRefresh = true ∧
    (recAt (runLoop results req).1 1).formatId = getFallbackFormat 1 req := by
  have hunf : runLoop results req = runLoopAux results req (2 + 1) 1 "" false false := rfl
  rw [hunf, runLoopAux_succ]
  have hr : retryable (results 1) = true := by simp [retryable, hbot]
  simp only [hfail, Bool.false_eq_true, if_false, hr, if_pos]
  have hrest : 0 < (runLoopAux results req 2 (1 + 1) (errStr (results 1))
      (results 1).isBotDetection (results 1).isTimeout).1.length :=
    runLoopAux_length_pos results req 2 (1 + 1) (errStr (results 1))
      (results 1).isBotDetection (results 1).isTimeout (by omega)
  refine ⟨by simp only [List.length_cons]; omega, by simp [recAt_cons_zero, hbot], ?_, ?_⟩
  · rw [recAt_cons_succ]
    rw [runLoopAux_succ]
    simp only [hbot, Bool.true_or]
    split
    · simp [recAt_cons_zero]
    · split
      · simp [recAt_cons_zero]
      · simp [recAt_cons_zero]
  · rw [recAt_cons_succ]
    have := runLoopAux_formatId results req 2 (1 + 1) (errStr (results 1))
      (results 1).isBotDetection (results 1).isTimeout (by omega)
      (errStr_ne_empty _) 0 (by omega)
    rw [this]

/-- Witness for C7 at a concrete run: bot-detection failure on attempt 1,
success on attempt 2, requested format `137+140`. -/
theorem accessBlocked_refresh_and_fallback_witness :
    1 < (runLoop botThenOk "137+140").1.length ∧
    (recAt (runLoop botThenOk "137+140").1 0).invalidatedCookies = true ∧
    (recAt (runLoop botThenOk "137+140").1 1).forceRefresh = true ∧
    (recAt (runLoop botThenOk "137+140").1 1).formatId =
      getFallbackFormat 1 "137+140" :=
  accessBlocked_refresh_and_fallback botThenOk "137+140" (by decide) (by decide)

/-- Counterexample to C7 as stated: after the bot-detection failure of
attempt 1 the next attempt does not use the same selection expression —
it downgrades from `137+140` to the first fallback entry. -/
theorem accessBlocked_downgrades_counterexample :
    (recAt (runLoop botThenOk "137+140").1 0).result.isBotDetection = true ∧
    (recAt (runLoop botThenOk "137+140").1 0).formatId = "137+140" ∧
    (recAt (runLoop botThenOk "137+140").1 1).formatId = "best[height<=720]" := by
  decide

/-- C3: on subprocess exit with status 0, the v5.4.2 route's close
listener unconditionally resolves success and publishes exactly 100% with
phase `complete` (regardless of any previously parsed percentage, which
that route caps at 95); but in the v5.2.0 route's close listener every
close — exit status 0 included, with a perfectly valid output file —
resolves as the timed-out failure, because the listener calls
`timeoutController.abort()` (which sets `isAborted`) before testing
`isAborted`, leaving its success path dead. -/
theorem exitZero_forces_complete_and_v52_bug :
    (∀ errorOutput : String,
      (routeCloseHandler 0 errorOutput).success = true ∧
      (routeCloseHandler 0 errorOutput).published =
        some (100, "Download complete!", "complete")) ∧
    (∀ (tc : TimeoutController) (errorOutput : String) (onDisk : Bool)
        (fileSize : Nat) (headerRead : Option String)
        (expectedSize : Option Nat) (hasVideo : Bool),
      executeDownloadClose tc errorOutput 0 onDisk fileSize headerRead
          expectedSize hasVideo =
        ⟨false, some "Download timed out", false, true, false⟩) := by
  constructor
  · intro e
    simp [routeCloseHandler]
  · intro tc e onDisk fsz hdr esz hv
    simp [executeDownloadClose, TimeoutController.abort]

/-- C8: the v5.2.0 close listener's leniency branch (part_000 lines
415-424) — accept a validation-rejected file of at least 1KB — is dead
code: at exit status 0 with an existing 2048-byte file that the validator
rejects (expected 100 bytes, ratio 20.48 > 5), the attempt still resolves
as the timed-out failure, because `timeoutController.abort()` runs before
the `isAborted` test. -/
theorem validationReject_large_resolves_timeout_bug :
    (validateDownloadedFile true 2048 (some "000000206674797069736f6d")
      (some 100) false).isValid = false ∧
    1024 ≤ (validateDownloadedFile true 2048 (some "000000206674797069736f6d")
      (some 100) false).fileSize ∧
    executeDownloadClose ⟨false⟩ "" 0 true 2048
        (some "000000206674797069736f6d") (some 100) false =
      ⟨false, some "Download timed out", false, true, false⟩ := by
  have hv : validateDownloadedFile true 2048 (some "000000206674797069736f6d")
      (some 100) false =
      ⟨false, 2048, some 100, some (((2048 : Nat) : ℚ) / ((100 : Nat) : ℚ)),
        some "Size mismatch", true⟩ := by
    unfold validateDownloadedFile
    norm_num [MIN_FILE_SIZE, SIZE_TOLERANCE_MIN, SIZE_TOLERANCE_MAX]
  refine ⟨by rw [hv], by rw [hv]; norm_num, ?_⟩
  simp [executeDownloadClose, TimeoutController.abort]

theorem publishStep_none (st : PubState) (p : ParsedProgress) (st2 : PubState)
    (h : publishStep st p = (st2, none)) : st2.lastProgress = st.lastProgress := by
  unfold publishStep at h
  by_cases hlt : st.lastProgress < overallOf st p
  · rw [if_pos hlt] at h
    injection h with h1 h2
    cases h2
  · rw [if_neg hlt] at h
    injection h with h1 h2
    rw [← h1]

theorem publishStep_some (st : PubState) (p : ParsedProgress) (st2 : PubState)
    (q : ℚ) (h : publishStep st p = (st2, some q)) :
    st.lastProgress < st2.lastProgress ∧ q = min st2.lastProgress 95 := by
  unfold publishStep at h
  by_cases hlt : st.lastProgress < overallOf st p
  · rw [if_pos hlt] at h
    injection h with h1 h2
    rw [← h1]
    injection h2 with h3
    exact ⟨hlt, h3.symm⟩
  · rw [if_neg hlt] at h
    injection h with h1 h2
    cases h2

theorem runPublisher_chain (ps : List ParsedProgress) :
    ∀ st : PubState,
      List.Chain' (· ≤ ·) (runPublisher st ps) ∧
      ∀ q ∈ runPublisher st ps, min st.lastProgress 95 ≤ q := by
  induction ps with
  | nil => intro st; simp [runPublisher]
  | cons p rest ih =>
    intro st
    rw [runPublisher]
    rcases hps : publishStep st p with ⟨st2, oq⟩
    cases oq with
    | none =>
      have hst := publishStep_none st p st2 hps
      have := ih st2
      exact ⟨this.1, fun q hq => by
        have := this.2 q hq
        rw [hst] at this
        exact this⟩
    | some q =>
      obtain ⟨hlt, hq⟩ := publishStep_some st p st2 q hps
      have hrest := ih st2
      constructor
      · rw [List.chain'_cons']
        refine ⟨fun y hy => ?_, hrest.1⟩
        have hmem : y ∈ runPublisher st2 rest := List.mem_of_mem_head? hy
        have := hrest.2 y hmem
        calc q = min st2.lastProgress 95 := hq
          _ ≤ y := this
      · intro x hx
        rcases List.mem_cons.mp hx with h | h
        · subst h
          rw [hq]
          exact min_le_min (le_of_lt hlt) le_rfl
        · calc min st.lastProgress 95 ≤ min st2.lastProgress 95 :=
              min_le_min (le_of_lt hlt) le_rfl
            _ ≤ x := hrest.2 x h

/-- C4 (amended): in the v5.4.2 route the published percentage sequence of
one attempt is monotonically non-decreasing for every sequence of parsed
progress events — the publisher only emits when the mapped overall value
strictly exceeds `lastProgress`, and emits `min overall 95`.  In the
v5.2.0 route the stderr listener publishes every parsed raw value
unclamped, and the published percentage can decrease (see the
counterexample). -/
theorem published_progress_monotone (ps : List ParsedProgress) :
    List.Chain' (· ≤ ·) (publishedProgress ps) :=
  (runPublisher_chain ps ⟨0, "downloading"⟩).1

/-- Counterexample to C4 as stated of the v5.2.0 publisher: a download
line at 87% publishes `min (87 * 0.9) 90 = 78.3`, and a following
`[download] Destination:` line (e.g. the audio stream of a merge
download starting) publishes 5 — a strictly lower value than the one
previously published for the same attempt. -/
theorem published_progress_decreases_counterexample :
    publishedSeq ["[download]  87%", "[download] Destination: a"] =
      [min (((87 : Nat) : ℚ) * (9/10)) 90, 5] ∧
    (5 : ℚ) < min (((87 : Nat) : ℚ) * (9/10)) 90 :=
  ⟨rfl, by norm_num⟩

/-- C9: `killProcessWithTimeout` sends the graceful SIGTERM at time 0
whenever the process has a pid and the kill call does not throw; SIGKILL
is delivered only at the end of the grace window (`timeoutMs`), strictly
after SIGTERM, and only when the process has not closed within the
window; and whenever the overall timeout controller fired, the v5.2.0
close listener resolves the attempt as the timed-out outcome whatever
signal ended the process. -/
theorem killProcess_graceful_then_forceful (env : KillEnv) (timeoutMs : Nat)
    (hpos : 0 < timeoutMs) :
    (env.hasPid = true → env.termThrows = false →
      (0, Sig.sigterm) ∈ killProcessWithTimeout env timeoutMs) ∧
    (∀ t, (t, Sig.sigkill) ∈ killProcessWithTimeout env timeoutMs →
      (0, Sig.sigterm) ∈ killProcessWithTimeout env timeoutMs ∧
      t = timeoutMs ∧ 0 < t ∧
      (∀ u, env.exitAfterTerm = some u → timeoutMs ≤ u)) ∧
    (∀ (tc : TimeoutController) (errorOutput : String) (code : Int)
        (onDisk : Bool) (fileSize : Nat) (headerRead : Option String)
        (expectedSize : Option Nat) (hasVideo : Bool),
      tc.isAborted = true →
      (executeDownloadClose tc errorOutput code onDisk fileSize headerRead
          expectedSize hasVideo).success = false ∧
      (executeDownloadClose tc errorOutput code onDisk fileSize headerRead
          expectedSize hasVideo).isTimeout = true) := by
  obtain ⟨hasPid, termThrows, exitAfterTerm⟩ := env
  refine ⟨?_, ?_, ?_⟩
  · intro hp ht
    subst hp; subst ht
    simp only [killProcessWithTimeout]
    cases exitAfterTerm with
    | none => simp
    | some t =>
      by_cases hlt : t < timeoutMs <;> simp [hlt]
  · intro t hmem
    cases hasPid with
    | false => simp [killProcessWithTimeout] at hmem
    | true =>
      cases termThrows with
      | true => simp [killProcessWithTimeout] at hmem
      | false =>
        cases exitAfterTerm with
        | none =>
          simp only [killProcessWithTimeout, Bool.not_true, Bool.false_eq_true,
            if_false] at hmem ⊢
          simp only [List.mem_cons, Prod.mk.injEq] at hmem
          rcases hmem with ⟨-, h⟩ | ⟨h1, -⟩ | h
          · cases h
          · subst h1
            exact ⟨by simp, rfl, hpos, by intro u hu; cases hu⟩
          · exact absurd h (List.not_mem_nil _)
        | some u =>
          by_cases hlt : u < timeoutMs
          · simp [killProcessWithTimeout, hlt] at hmem
          · simp only [killProcessWithTimeout, Bool.not_true, Bool.false_eq_true,
              if_false, hlt] at hmem ⊢
            simp only [if_neg hlt, List.mem_cons, Prod.mk.injEq] at hmem
            rcases hmem with ⟨-, h⟩ | ⟨h1, -⟩ | h
            · cases h
            · subst h1
              refine ⟨by simp [if_neg hlt], rfl, hpos, ?_⟩
              intro v hv
              injection hv with hv
              omega
            · exact absurd h (List.not_mem_nil _)
  · intro tc eo code onDisk fsz hdr esz hv htc
    constructor <;> simp [executeDownloadClose, TimeoutController.abort]

/-- Witness for C9 at the concrete call of part_000 line 300: default
grace window 5000ms, live pid, process that never closes by itself —
SIGTERM at 0 and SIGKILL at 5000 are both delivered. -/
theorem killProcess_graceful_then_forceful_witness :
    (0, Sig.sigterm) ∈ killProcessWithTimeout ⟨true, false, none⟩ 5000 ∧
    ∀ t, (t, Sig.sigkill) ∈ killProcessWithTimeout ⟨true, false, none⟩ 5000 →
      t = 5000 :=
  ⟨(killProcess_graceful_then_forceful ⟨true, false, none⟩ 5000 (by decide)).1
      rfl rfl,
    fun t ht =>
      ((killProcess_graceful_then_forceful ⟨true, false, none⟩ 5000
        (by decide)).2.1 t ht).2.1⟩

theorem applyCleanups_no_unlink (es : List CleanupEvent) :
    ∀ s : CleanupState, s.onDisk = false →
      (applyCleanups s es).onDisk = false ∧
      (applyCleanups s es).unlinks = s.unlinks := by
  induction es with
  | nil => intro s h; exact ⟨h, rfl⟩
  | cons e rest ih =>
    intro s h
    have hstep : (applyCleanup s e).onDisk = false ∧
        (applyCleanup s e).unlinks = s.unlinks := by
      cases e <;>
        simp [applyCleanup, deleteTempFileStep, cleanupDownloadStep, h] <;>
        split <;> simp [h]
    have := ih (applyCleanup s e) hstep.1
    have hfold : applyCleanups s (e :: rest) =
        applyCleanups (applyCleanup s e) rest := rfl
    rw [hfold]
    exact ⟨this.1, by rw [this.2, hstep.2]⟩

/-- C2: starting from a live attempt (temp file on disk, registry entry
present), after any one of the designated terminal cleanup paths runs —
stream completion, stream error, stream cancellation, the cancel
endpoint, the failed-download cleanup, the retry-rotation delete, or the
final cleanup — followed by any further sequence of cleanup invocations
(overlapping terminal paths), the temp file is absent from disk and has
been unlinked exactly once: never deleted twice, never left behind. -/
theorem temp_file_deleted_exactly_once (e : CleanupEvent)
    (rest : List CleanupEvent) :
    (applyCleanups liveAttempt (e :: rest)).onDisk = false ∧
    (applyCleanups liveAttempt (e :: rest)).unlinks = 1 := by
  have hfirst : (applyCleanup liveAttempt e).onDisk = false ∧
      (applyCleanup liveAttempt e).unlinks = 1 := by
    cases e <;>
      simp [applyCleanup, deleteTempFileStep, cleanupDownloadStep, liveAttempt]
  have hrest := applyCleanups_no_unlink rest (applyCleanup liveAttempt e) hfirst.1
  have hfold : applyCleanups liveAttempt (e :: rest) =
      applyCleanups (applyCleanup liveAttempt e) rest := rfl
  rw [hfold]
  exact ⟨hrest.1, by rw [hrest.2, hfirst.2]⟩

/-- C10: `deleteTempFile` never raises (the result is always `ok`), is a
no-op on a null path and on a path that is not on disk, and is
idempotent: repeating the call on the same path leaves the filesystem of
the first call unchanged — so overlapping cleanup paths cannot fail or
corrupt state. -/
theorem deleteTempFile_total_noop_idempotent (unlinkErr : String → Bool)
    (fs : Fs) (p : String) :
    (deleteTempFile unlinkErr fs none = Except.ok fs) ∧
    (∀ q : String, ∃ fs2, deleteTempFile unlinkErr fs (some q) = Except.ok fs2) ∧
    (fs p = false → deleteTempFile unlinkErr fs (some p) = Except.ok fs) ∧
    (∀ fs2, deleteTempFile unlinkErr fs (some p) = Except.ok fs2 →
      deleteTempFile unlinkErr fs2 (some p) = Except.ok fs2) := by
  refine ⟨rfl, ?_, ?_, ?_⟩
  · intro q
    by_cases hq : fs q
    · by_cases he : unlinkErr q
      · exact ⟨fs, by simp [deleteTempFile, unlinkSync, hq, he]⟩
      · exact ⟨fun r => if r = q then false else fs r,
          by simp [deleteTempFile, unlinkSync, hq, he]⟩
    · exact ⟨fs, by simp [deleteTempFile, hq]⟩
  · intro h
    simp [deleteTempFile, h]
  · intro fs2 h
    by_cases hq : fs p
    · by_cases he : unlinkErr p
      · simp only [deleteTempFile, unlinkSync, hq, if_pos, he, if_true] at h
        injection h with h1
        subst h1
        simp [deleteTempFile, unlinkSync, hq, he]
      · simp only [deleteTempFile, unlinkSync, hq, if_pos, he,
          Bool.false_eq_true, if_false] at h
        injection h with h1
        subst h1
        simp [deleteTempFile]
    · simp only [deleteTempFile, hq, Bool.false_eq_true, if_false] at h
      injection h with h1
      subst h1
      simp [deleteTempFile, hq]

/-- Witness for C10: deleting a path that is not on disk leaves the
filesystem unchanged. -/
theorem deleteTempFile_total_noop_idempotent_witness :
    deleteTempFile (fun _ => false) (fun q => q == "/tmp/yt/a.mp4")
      (some "/tmp/yt/b.mp4") = Except.ok (fun q => q == "/tmp/yt/a.mp4") :=
  (deleteTempFile_total_noop_idempotent (fun _ => false)
    (fun q => q == "/tmp/yt/a.mp4") "/tmp/yt/b.mp4").2.2.1 (by decide)
